import Mathlib

/-!
Shallow embedding of the inference-safe-aggregation repository
(src/src/aggregation_methods.py and src/src/attacks.py).

Database rows are ordered mappings from column names to scalar values.
The external store (src/src/database.py, `db.execute_query`) is modelled
as an oracle `Oracle : String → List Value → Except String (List Row)`:
`.ok rows` is a successful fetch, `.error e` a raised exception whose
message is `e`.  The audit table (`db.log_query_audit`) is modelled as an
explicit list of `AuditRecord` threaded through the functions that write
to it; the audit interface itself is fire-and-forget and always succeeds.

Numeric scalars (Python int / float / Decimal) are modelled as `ℚ`;
Python float rendering inside f-strings is abstracted by `toString` on
`ℚ` (no claim depends on the rendering of non-integer numbers).
Functions whose Python original can raise an uncaught exception
(KeyError on a missing column, TypeError on comparing or iterating a
non-numeric / absent value) return `Option`, with `none` modelling the
uncaught exception.
-/

/-- A scalar cell value: numeric (int/float/Decimal), string, or SQL NULL. -/
inductive Value where
  | num (q : ℚ)
  | str (s : String)
  | null
  deriving DecidableEq, Repr

/-- `True` iff the value is numeric (Python `isinstance(v, (int, float))`). -/
def Value.isNum : Value → Bool
  | .num _ => true
  | _ => false

/-- A row as returned by `RealDictCursor`: ordered column/value pairs. -/
abbrev Row := List (String × Value)

/-- One entry of the `query_audit` table, as written by `db.log_query_audit`. -/
structure AuditRecord where
  username : String
  query_text : String
  result_count : ℚ
  was_blocked : Bool
  block_reason : Option String
  deriving DecidableEq, Repr

/-- The external store: given query text and parameters it either returns
rows or raises (message `e`).  `db.execute_query` is this oracle. -/
abbrev Oracle := String → List Value → Except String (List Row)

/-- Look a column up in a row (Python `row[key]`, as an `Option`). -/
def lookupVal (r : Row) (k : String) : Option Value :=
  (r.find? (fun p => p.1 == k)).map (fun p => p.2)

/-- `AggregationMethod.execute_with_logging`: run the query through the
store, then unconditionally append one audit record — result count and
`was_blocked = false` on success, count 0, `was_blocked = true` and the
exception message on failure.  Returns `(results, was_blocked, block_reason)`
together with the new audit log. -/
def AggregationMethod.execute_with_logging (o : Oracle) (username query : String)
    (params : List Value) (audit : List AuditRecord) :
    (Option (List Row) × Bool × Option String) × List AuditRecord :=
  match o query params with
  | .ok results =>
      ((some results, false, none),
        audit ++ [⟨username, query, (results.length : ℚ), false, none⟩])
  | .error e =>
      ((none, true, some e),
        audit ++ [⟨username, query, 0, true, some e⟩])

/-- `InferenceAttack.execute_query`: run the query through the store,
returning `none` on failure (the `except` branch only prints).  No audit
record is written on either path: the audit log is returned unchanged. -/
def InferenceAttack.execute_query (o : Oracle) (query : String)
    (params : List Value) (audit : List AuditRecord) :
    Option (List Row) × List AuditRecord :=
  (match o query params with
   | .ok rs => some rs
   | .error _ => none, audit)

/-- Stateless view of `InferenceAttack.execute_query` (the audit log is
never touched by it), used inside the attack algorithms. -/
def attackQuery (o : Oracle) (query : String) (params : List Value) :
    Option (List Row) :=
  match o query params with
  | .ok rs => some rs
  | .error _ => none

/-- A strategy `Outcome` dictionary.  `none` in `results` models the
Python value `None`; `none` in `original_results` models the *absence*
of the `'original_results'` key (when present the key is never `None`). -/
structure Outcome where
  method : String
  blocked : Bool
  block_reason : Option String
  results : Option (List Row)
  original_results : Option (List Row)
  protection_applied : Option String
  deriving DecidableEq, Repr

/-- `NoProtection.aggregate`: execute with logging and pass everything
through. -/
def NoProtection.aggregate (o : Oracle) (username query : String)
    (params : List Value) (audit : List AuditRecord) :
    Outcome × List AuditRecord :=
  match AggregationMethod.execute_with_logging o username query params audit with
  | ((results, blocked, reason), a1) =>
      (⟨"No Protection", blocked, reason, results, none, none⟩, a1)

/-! ## Minimum Size Restriction -/

/-- Python `s.lower()` character-wise. -/
def pyLower (s : List Char) : List Char := s.map Char.toLower

/-- Python `s.strip()`: drop leading and trailing whitespace. -/
def pyStrip (s : List Char) : List Char :=
  ((s.dropWhile Char.isWhitespace).reverse.dropWhile Char.isWhitespace).reverse

/-- Python `s.startswith(p)` on character lists (first argument is the
pattern). -/
def listStartsWith : List Char → List Char → Bool
  | [], _ => true
  | _ :: _, [] => false
  | p :: ps, c :: cs => p == c && listStartsWith ps cs

/-- Python `hay.find(needle)` for a non-empty needle, from index `i`. -/
def findSubFrom (needle : List Char) : List Char → Nat → Option Nat
  | [], _ => none
  | c :: t, i =>
      if listStartsWith needle (c :: t) then some i else findSubFrom needle t (i + 1)

/-- Python `hay.find(needle)` for a non-empty needle (`none` for `-1`). -/
def findSubL (needle hay : List Char) : Option Nat := findSubFrom needle hay 0

/-- `MinimumSizeRestriction._convert_to_count_query`: lowercase and strip
the query; if it starts with `select` and contains `from`, splice
`SELECT COUNT(*) as count FROM ` in front of the characters of the
*original* query after the index found in the *stripped lowercase* text
(faithfully reproducing the source's index mismatch when the query has
leading whitespace); otherwise wrap the whole query as a subquery.
`countQueryAux` is the branch logic over the precomputed lowercased,
stripped text. -/
def countQueryAux (query : String) (query_lower : List Char) : String :=
  if listStartsWith "select".toList query_lower then
    match findSubL "from".toList query_lower with
    | some i =>
        ("SELECT COUNT(*) as count FROM ".toList ++ query.toList.drop (i + 4)).asString
    | none =>
        ("SELECT COUNT(*) as count FROM (".toList ++ query.toList
          ++ ") as subquery".toList).asString
  else
    ("SELECT COUNT(*) as count FROM (".toList ++ query.toList
      ++ ") as subquery".toList).asString

def MinimumSizeRestriction.convert_to_count_query (query : String) : String :=
  countQueryAux query (pyStrip (pyLower query.toList))

/-- `count_results[0]['count'] if count_results else 0`, followed by the
numeric comparison against the minimum: `none` models the uncaught
KeyError (missing column) or TypeError (non-numeric value). -/
def getCount : List Row → Option ℚ
  | [] => some 0
  | r :: _ =>
      match lookupVal r "count" with
      | some (.num x) => some x
      | _ => none

/-- The block reason written when the result set is too small. -/
def smallReason (c : ℚ) (minSize : ℤ) : String :=
  "Result set too small: " ++ toString c ++ " < " ++ toString minSize

/-- `MinimumSizeRestriction.aggregate`: run the derived COUNT query first;
block on gateway failure, block (with an extra manual audit record) when
the count is below the minimum, otherwise run the real query. -/
def MinimumSizeRestriction.aggregate (o : Oracle) (username : String)
    (min_size : ℤ) (query : String) (params : List Value)
    (audit : List AuditRecord) : Option (Outcome × List AuditRecord) :=
  match AggregationMethod.execute_with_logging o username
      (MinimumSizeRestriction.convert_to_count_query query) params audit with
  | ((_, true, reason), a1) =>
      some (⟨"Minimum Size Restriction", true, reason, none, none,
             some ("min_size=" ++ toString min_size)⟩, a1)
  | ((count_results, false, _), a1) =>
      match getCount (count_results.getD []) with
      | none => none
      | some c =>
        if c < (min_size : ℚ) then
          some (⟨"Minimum Size Restriction", true, some (smallReason c min_size),
                 none, none, some ("min_size=" ++ toString min_size)⟩,
                a1 ++ [⟨username, query, c, true, some (smallReason c min_size)⟩])
        else
          match AggregationMethod.execute_with_logging o username query params a1 with
          | ((results, blocked, reason), a2) =>
              some (⟨"Minimum Size Restriction", blocked, reason, results, none,
                     some ("min_size=" ++ toString min_size
                           ++ ", actual_size=" ++ toString c)⟩, a2)

/-! ## Differential Privacy -/

/-- Number of numeric-valued fields in a row. -/
def numCountRow (r : Row) : Nat := r.countP (fun p => p.2.isNum)

/-- Total number of numeric-valued fields in a list of rows. -/
def numCountRows (rs : List Row) : Nat := (rs.map numCountRow).sum

/-- The inner loop of `DifferentialPrivacy.aggregate` over one row: each
numeric field receives the next draw from the noise stream `noise`
(`np.random.laplace(0, 1/epsilon)`, modelled as the `k`-th element of an
abstract stream of independent draws); every other field is copied
unchanged.  Returns the noisy row and the advanced draw counter. -/
def dpRow (noise : Nat → ℚ) : Row → Nat → Row × Nat
  | [], k => ([], k)
  | (key, .num q) :: rest, k =>
      let t := dpRow noise rest (k + 1)
      ((key, .num (q + noise k)) :: t.1, t.2)
  | (key, v) :: rest, k =>
      let t := dpRow noise rest k
      ((key, v) :: t.1, t.2)

/-- The outer loop of `DifferentialPrivacy.aggregate`: rows are processed
in order, the draw counter threading through. -/
def dpRows (noise : Nat → ℚ) : List Row → Nat → List Row × Nat
  | [], k => ([], k)
  | r :: rs, k =>
      let t := dpRow noise r k
      let u := dpRows noise rs t.2
      (t.1 :: u.1, u.2)

/-- `DifferentialPrivacy.aggregate`: execute with logging; on failure or
an empty result list return `results = None`; otherwise add fresh noise
to every numeric field and also return the original rows under
`original_results`. -/
def DifferentialPrivacy.aggregate (o : Oracle) (noise : Nat → ℚ)
    (username : String) (epsilon : ℚ) (query : String) (params : List Value)
    (audit : List AuditRecord) : Outcome × List AuditRecord :=
  match AggregationMethod.execute_with_logging o username query params audit with
  | ((results, blocked, reason), a1) =>
      match results with
      | some (r :: rs) =>
          (⟨"Differential Privacy", false, none,
            some (dpRows noise (r :: rs) 0).1, some (r :: rs),
            some ("epsilon=" ++ toString epsilon ++ ", laplace_noise_added")⟩, a1)
      | _ =>
          (⟨"Differential Privacy", blocked, reason, none, none,
            some ("epsilon=" ++ toString epsilon)⟩, a1)

/-! ## Overlap Control -/

/-- A row of the `query_history` table as seen by `OverlapControl`; only
the `result_set_hash` column is read (`hist_entry.get('result_set_hash')`,
`NULL` modelled as `none`).  The 256-bit hex digest is modelled by its
numeric value. -/
structure HistEntry where
  result_set_hash : Option Nat
  deriving DecidableEq, Repr

/-- Number of agreeing positions between the 256-character binary
expansions of the two hashes (`bin(int(h,16))[2:].zfill(256)` compared
position-wise); position `i` from the right is bit `i`.  Valid for the
sha256 digests actually stored, which are below `2 ^ 256`. -/
def hammingMatches (h1 h2 : Nat) : Nat :=
  (List.range 256).countP (fun i => h1.testBit i == h2.testBit i)

/-- `OverlapControl._calculate_overlap`: fraction of matching bits. -/
def OverlapControl.calculate_overlap (h1 h2 : Nat) : ℚ :=
  (hammingMatches h1 h2 : ℚ) / 256

/-- The overlap block reason (the Python `:.2f` float formatting of the
overlap value is abstracted; no claim depends on this text). -/
def overlapReason (ov : ℚ) : String :=
  "Query overlap too high: " ++ toString ov

/-- The per-entry check of the history loop in `OverlapControl.aggregate`:
an entry trips the overlap control when it has a stored hash whose
similarity to the current hash strictly exceeds the threshold. -/
def overlapPred (current_hash : Nat) (overlap_threshold : ℚ) (e : HistEntry) : Bool :=
  match e.result_set_hash with
  | some h =>
      decide (OverlapControl.calculate_overlap current_hash h > overlap_threshold)
  | none => false

/-- `OverlapControl.aggregate`.  The caller's 20 most recent history
entries (fetched by `db.get_query_history(username, limit=20)`) are the
`history` argument; the sha256-of-canonicalized-rows computation used
both for the current result set and when storing history is the `hashFn`
argument.  Returns the outcome, the audit log, and the history entry
appended by `db.store_query_history` on success (`none` when nothing was
stored). -/
def OverlapControl.aggregate (o : Oracle) (hashFn : List Row → Nat)
    (username : String) (overlap_threshold : ℚ) (history : List HistEntry)
    (query : String) (params : List Value) (audit : List AuditRecord) :
    Outcome × List AuditRecord × Option HistEntry :=
  match AggregationMethod.execute_with_logging o username query params audit with
  | ((results, blocked, reason), a1) =>
      match results with
      | some (r :: rs) =>
          match history.find? (overlapPred (hashFn (r :: rs)) overlap_threshold) with
          | some e =>
              (⟨"Overlap Control", true,
                some (overlapReason (OverlapControl.calculate_overlap
                        (hashFn (r :: rs)) (e.result_set_hash.getD 0))),
                none, none,
                some ("threshold=" ++ toString overlap_threshold)⟩,
               a1 ++ [⟨username, query, ((r :: rs).length : ℚ), true,
                      some (overlapReason (OverlapControl.calculate_overlap
                              (hashFn (r :: rs)) (e.result_set_hash.getD 0)))⟩],
               none)
          | none =>
              (⟨"Overlap Control", false, none, some (r :: rs), none,
                some ("threshold=" ++ toString overlap_threshold
                      ++ ", overlap_acceptable")⟩,
               a1, some ⟨some (hashFn (r :: rs))⟩)
      | _ =>
          (⟨"Overlap Control", blocked, reason, none, none,
            some ("threshold=" ++ toString overlap_threshold)⟩, a1, none)

/-! ## Cell Suppression -/

/-- Membership of the (already lowercase) needle in `key.lower()`
(Python `'count' in key.lower()`). -/
def containsCount (key : String) : Bool :=
  (findSubL "count".toList (pyLower key.toList)).isSome

/-- The first column of the row whose name contains `count`
(the `for key in row.keys(): ... break` scan). -/
def findCountCol (r : Row) : Option String :=
  (r.find? (fun p => containsCount p.1)).map (fun p => p.1)

/-- The suppressed row: every column except the count column becomes the
marker `'SUPPRESSED'`; the count column becomes `None`. -/
def suppressRow (r : Row) (count_col : String) : Row :=
  r.map (fun p => (p.1, if p.1 == count_col then Value.null
                        else Value.str "SUPPRESSED"))

/-- Per-row suppression step of `CellSuppression.aggregate`: `none`
models the uncaught TypeError when the count column's value is not
numeric (Python `row[count_col] < self.min_cell_size`).  The boolean
reports whether the row was suppressed. -/
def cellSuppressRow (min_cell_size : ℚ) (r : Row) : Option (Row × Bool) :=
  match findCountCol r with
  | none => some (r, false)
  | some c =>
      match lookupVal r c with
      | some (.num x) =>
          if x < min_cell_size then some (suppressRow r c, true)
          else some (r, false)
      | some _ => none
      | none => some (r, false)

/-- The row loop of `CellSuppression.aggregate`: suppressed rows replace
the originals in order and the suppressed rows are counted. -/
def cellSuppressRows (min_cell_size : ℚ) : List Row → Option (List Row × Nat)
  | [] => some ([], 0)
  | r :: rest =>
      match cellSuppressRow min_cell_size r with
      | none => none
      | some (r2, b) =>
          match cellSuppressRows min_cell_size rest with
          | none => none
          | some (rs2, n) => some (r2 :: rs2, n + (if b then 1 else 0))

/-- `CellSuppression.aggregate`: execute with logging; on failure or an
empty result list return `results = None`; otherwise suppress small
cells row by row and also return the original rows under
`original_results`. -/
def CellSuppression.aggregate (o : Oracle) (username : String)
    (min_cell_size : ℚ) (query : String) (params : List Value)
    (audit : List AuditRecord) : Option (Outcome × List AuditRecord) :=
  match AggregationMethod.execute_with_logging o username query params audit with
  | ((results, blocked, reason), a1) =>
      match results with
      | some (r :: rs) =>
          match cellSuppressRows min_cell_size (r :: rs) with
          | none => none
          | some (suppressed, n) =>
              some (⟨"Cell Suppression", false, none, some suppressed,
                     some (r :: rs),
                     some ("min_cell_size=" ++ toString min_cell_size
                           ++ ", suppressed=" ++ toString n)⟩, a1)
      | _ =>
          some (⟨"Cell Suppression", blocked, reason, none, none,
                 some ("min_cell_size=" ++ toString min_cell_size)⟩, a1)

/-! ## Differencing attack

The SQL texts of `DifferencingAttack.attack` (whitespace of the Python
triple-quoted literals normalized to single spaces; the oracle treats
query texts opaquely). -/

def diffQuery1 : String :=
  "SELECT AVG(salary) as avg_salary, COUNT(*) as emp_count FROM employees WHERE department = %s"

def diffQuery2 : String :=
  "SELECT AVG(salary) as avg_salary, COUNT(*) as emp_count FROM employees WHERE department = %s AND name != %s"

def diffVerifyQuery : String := "SELECT salary FROM employees WHERE name = %s"

/-- The result dictionary of `DifferencingAttack.attack`; `none` fields
model keys that are absent or hold `None` in the corresponding branch. -/
structure DiffResult where
  attack_type : String
  success : Bool
  reason : Option String
  target : Option String
  department : Option String
  inferred_salary : Option ℚ
  actual_salary : Option ℚ
  error : Option ℚ
  queries_used : Option Nat
  deriving DecidableEq, Repr

/-- `DifferencingAttack.attack`: two aggregate queries, the reconstruction
`avg_with_target * total_count - avg_without_target * count_without`
(where `count_without` is the count *returned by the second query*), and
a verification query.  `none` models the uncaught exceptions of the
source (KeyError on a missing column, `float()` / arithmetic TypeError
on a non-numeric value, including the verification row's salary). -/
def DifferencingAttack.attack (o : Oracle) (target_name department : String) :
    Option DiffResult :=
  match attackQuery o diffQuery1 [.str department] with
  | none =>
      some ⟨"Differencing", false, some "Failed to execute first query",
            none, none, none, none, none, none⟩
  | some [] =>
      some ⟨"Differencing", false, some "Failed to execute first query",
            none, none, none, none, none, none⟩
  | some (r1 :: _) =>
      match lookupVal r1 "avg_salary", lookupVal r1 "emp_count" with
      | some (.num avg_with_target), some (.num total_count) =>
          match attackQuery o diffQuery2 [.str department, .str target_name] with
          | none =>
              some ⟨"Differencing", false, some "Failed to execute second query",
                    none, none, none, none, none, none⟩
          | some [] =>
              some ⟨"Differencing", false, some "Failed to execute second query",
                    none, none, none, none, none, none⟩
          | some (r2 :: _) =>
              match lookupVal r2 "avg_salary", lookupVal r2 "emp_count" with
              | some (.num avg_without_target), some (.num count_without) =>
                  let inferred_salary :=
                    avg_with_target * total_count - avg_without_target * count_without
                  match attackQuery o diffVerifyQuery [.str target_name] with
                  | none =>
                      some ⟨"Differencing", true, none, some target_name,
                            some department, some inferred_salary, none, none, some 2⟩
                  | some [] =>
                      some ⟨"Differencing", true, none, some target_name,
                            some department, some inferred_salary, none, none, some 2⟩
                  | some (a :: _) =>
                      match lookupVal a "salary" with
                      | some (.num s) =>
                          some ⟨"Differencing", true, none, some target_name,
                                some department, some inferred_salary, some s,
                                if s == 0 then none else some |inferred_salary - s|,
                                some 2⟩
                      | _ => none
              | _, _ => none
      | _, _ => none

/-! ## Sum attack -/

def sumQuery1 : String :=
  "SELECT SUM(salary) as total_salary, COUNT(*) as emp_count FROM employees WHERE department = %s"

def sumQuery2 : String :=
  "SELECT name, salary FROM employees WHERE department = %s"

/-- The result dictionary of `SumAttack.attack`.  Inferred salaries keep
the raw name value of the row they came from. -/
structure SumResult where
  attack_type : String
  success : Bool
  reason : Option String
  department : Option String
  total_sum : Option ℚ
  known_sum : Option ℚ
  unknown_sum : Option ℚ
  unknown_count : Option ℚ
  inferred_salaries : List (Value × ℚ)
  queries_used : Option Nat
  deriving DecidableEq, Repr

/-- Python `name in known_salaries` for a row's name value against the
attacker's known-salary dictionary (string keys). -/
def knownHas (known : List (String × ℚ)) : Value → Bool
  | .str s => (known.find? (fun p => p.1 == s)).isSome
  | _ => false

/-- The member-enumeration loop of `SumAttack.attack`: for each employee
row whose name is not among the known salaries, record
`(name, unknown_sum)` and read the actual salary (whose `float()` call
can raise — modelled by `none`; a missing `name` column is a KeyError,
also `none`). -/
def sumCollect (known : List (String × ℚ)) (unknown_sum : ℚ) :
    List Row → Option (List (Value × ℚ))
  | [] => some []
  | emp :: rest =>
      match lookupVal emp "name" with
      | none => none
      | some nm =>
          if knownHas known nm then sumCollect known unknown_sum rest
          else
            match lookupVal emp "salary" with
            | some (.num _) =>
                match sumCollect known unknown_sum rest with
                | none => none
                | some l => some ((nm, unknown_sum) :: l)
            | _ => none

/-- `SumAttack.attack`: query the department's total sum and count,
subtract the attacker's known values, and — when exactly one member is
unknown — enumerate the members to name the remaining one.  `none`
models the uncaught exceptions of the source; in particular, when the
member-enumeration query fails, `execute_query` returns Python `None`
and the subsequent `for emp in all_emps` raises TypeError. -/
def SumAttack.attack (o : Oracle) (department : String)
    (known_salaries : List (String × ℚ)) : Option SumResult :=
  match attackQuery o sumQuery1 [.str department] with
  | none =>
      some ⟨"SUM", false, some "Failed to get department totals",
            none, none, none, none, none, [], none⟩
  | some [] =>
      some ⟨"SUM", false, some "Failed to get department totals",
            none, none, none, none, none, [], none⟩
  | some (r1 :: _) =>
      match lookupVal r1 "total_salary", lookupVal r1 "emp_count" with
      | some (.num total_sum), some (.num total_count) =>
          let known_sum := (known_salaries.map (fun p => p.2)).sum
          let known_count : ℚ := (known_salaries.length : ℚ)
          let unknown_sum := total_sum - known_sum
          let unknown_count := total_count - known_count
          if unknown_count == 1 then
            match attackQuery o sumQuery2 [.str department] with
            | none => none
            | some all_emps =>
                match sumCollect known_salaries unknown_sum all_emps with
                | none => none
                | some inferred =>
                    some ⟨"SUM", true, none, some department, some total_sum,
                          some known_sum, some unknown_sum, some unknown_count,
                          inferred, some 2⟩
          else
            some ⟨"SUM", false, none, some department, some total_sum,
                  some known_sum, some unknown_sum, some unknown_count,
                  [], some 2⟩
      | _, _ => none

/-! ## Concrete fixtures for counterexamples and witnesses -/

/-- A store on which every query succeeds with an empty result set. -/
def emptyOkOracle : Oracle := fun _ _ => .ok []

/-- The all-zero noise stream. -/
def zeroNoise : Nat → ℚ := fun _ => 0

/-- A store answering every query with a single one-column row. -/
def oneRowOracle : Oracle := fun _ _ => .ok [[("avg_salary", Value.num 70000)]]

def c3Query : String := "select salary from employees"

/-- A store for the minimum-size fixture: the derived count query
reports 7 rows; the original query returns two salary rows. -/
def c3Oracle : Oracle := fun q _ =>
  if q = MinimumSizeRestriction.convert_to_count_query c3Query then
    .ok [[("count", Value.num 7)]]
  else if q = c3Query then
    .ok [[("salary", Value.num 100)], [("salary", Value.num 200)]]
  else .error "unexpected query"

/-- A store answering with one generic row (overlap fixture). -/
def c4Oracle : Oracle := fun _ _ => .ok [[("a", Value.num 1)]]

/-- A row with two count-like columns: the first is above the default
minimum cell size, the second below it. -/
def c5Row : Row := [("count_a", Value.num 5), ("count_b", Value.num 1)]

def c5Oracle : Oracle := fun _ _ => .ok [c5Row]

/-- A suppressible grouped row (count 2 below the default minimum 3). -/
def cw5Oracle : Oracle := fun _ _ =>
  .ok [[("dept", Value.str "Ops"), ("emp_count", Value.num 2)]]

/-- A store for the differencing counterexample: the second aggregate
query returns the same employee count as the first (the targeted name
matches nobody), and the verification query fails. -/
def c6Oracle : Oracle := fun q _ =>
  if q = diffQuery1 then .ok [[("avg_salary", Value.num 100), ("emp_count", Value.num 2)]]
  else if q = diffQuery2 then .ok [[("avg_salary", Value.num 50), ("emp_count", Value.num 2)]]
  else .error "permission denied"

/-- A consistent differencing fixture: 10 employees averaging 70000,
9 averaging 66000 without the target, target salary 106000. -/
def cw6Oracle : Oracle := fun q _ =>
  if q = diffQuery1 then .ok [[("avg_salary", Value.num 70000), ("emp_count", Value.num 10)]]
  else if q = diffQuery2 then .ok [[("avg_salary", Value.num 66000), ("emp_count", Value.num 9)]]
  else if q = diffVerifyQuery then .ok [[("salary", Value.num 106000)]]
  else .error "unexpected query"

/-- A store for the sum-attack crash: the totals query succeeds, the
member-enumeration query raises. -/
def c7Oracle : Oracle := fun q _ =>
  if q = sumQuery1 then
    .ok [[("total_salary", Value.num 350000), ("emp_count", Value.num 5)]]
  else .error "permission denied for table employees"

/-- Four known salaries summing to 278000 out of five members. -/
def c7Known : List (String × ℚ) :=
  [("Alice Johnson", 70000), ("Bob Smith", 70000),
   ("Carol Lee", 70000), ("Dana Cox", 68000)]

/-- A store answering with one mixed numeric/text row. -/
def c8Oracle : Oracle := fun _ _ =>
  .ok [[("salary", Value.num 100), ("name", Value.str "Bob")]]

/-- A nonzero noise stream distinguishing successive draws. -/
def c8Noise : Nat → ℚ := fun n => (n : ℚ) + 1

/-- A query that contains the FROM keyword but does not start with
SELECT. -/
def c9Query : String := "WITH t AS (SELECT 1) SELECT * FROM t"

/-- A store on which every query fails. -/
def errOracle : Oracle := fun _ _ => .error "permission denied"

/-! ## Claims -/

/-- C1 (counterexample): on a query that executes successfully but
returns no rows, Differential Privacy returns `blocked = false` with the
`results` field `None` — so `blocked = false` does *not* imply that
`rows` is populated (not even as an empty list), refuting the claimed
invariant as stated. -/
theorem C1_counterexample :
    (DifferentialPrivacy.aggregate emptyOkOracle zeroNoise "alice" 1 "SELECT 1" [] []).1.blocked
        = false
    ∧ (DifferentialPrivacy.aggregate emptyOkOracle zeroNoise "alice" 1 "SELECT 1" [] []).1.results
        = none :=
  ⟨rfl, rfl⟩

/-- C2 (counterexample): a query issued through
`InferenceAttack.execute_query` writes no audit record at all — the
audit log is left empty even though the query succeeded — whereas the
claim demands exactly one record per executed query. -/
theorem C2_counterexample :
    (InferenceAttack.execute_query oneRowOracle
        "SELECT AVG(salary) as avg_salary FROM employees" [] []).1
        = some [[("avg_salary", Value.num 70000)]]
    ∧ (InferenceAttack.execute_query oneRowOracle
        "SELECT AVG(salary) as avg_salary FROM employees" [] []).2.length ≠ 1 :=
  ⟨rfl, by decide⟩

/-- C2 (amended): every query executed through
`AggregationMethod.execute_with_logging` appends exactly one audit
record — caller, query text, result count and `was_blocked = false` on
success; count 0, `was_blocked = true` and the failure reason on the
failure path — while a query issued through
`InferenceAttack.execute_query` appends none. -/
theorem C2_gateway_audit :
    ∀ (o : Oracle) (u q : String) (p : List Value) (audit : List AuditRecord),
    (∀ rs, o q p = .ok rs →
      (AggregationMethod.execute_with_logging o u q p audit).2
        = audit ++ [⟨u, q, (rs.length : ℚ), false, none⟩]) ∧
    (∀ e, o q p = .error e →
      (AggregationMethod.execute_with_logging o u q p audit).2
        = audit ++ [⟨u, q, 0, true, some e⟩]) ∧
    (InferenceAttack.execute_query o q p audit).2 = audit := by
  intro o u q p audit
  refine ⟨?_, ?_, rfl⟩
  · intro rs h
    simp [AggregationMethod.execute_with_logging, h]
  · intro e h
    simp [AggregationMethod.execute_with_logging, h]

/-- C2 witness: the amended theorem applied to a concrete successful
query. -/
theorem C2_gateway_audit_witness :
    (AggregationMethod.execute_with_logging oneRowOracle "alice" "SELECT 1" [] []).2
      = [] ++ [⟨"alice", "SELECT 1",
                (([[("avg_salary", Value.num 70000)]] : List Row).length : ℚ),
                false, none⟩] :=
  (C2_gateway_audit oneRowOracle "alice" "SELECT 1" [] []).1 _ rfl

/-- C7: the code evaluated at the failing input.  With one unknown
member remaining, a failure of the member-enumeration query makes
`SumAttack.attack` raise (Python iterates over `None`), modelled here by
`none` — no structured result dictionary is produced, contradicting the
spec's error-handling design. -/
theorem C7_sum_attack_crash :
    SumAttack.attack c7Oracle "Operations" c7Known = none := by
  have h1 : attackQuery c7Oracle sumQuery1 [Value.str "Operations"]
      = some [[("total_salary", Value.num 350000), ("emp_count", Value.num 5)]] := rfl
  have h2 : attackQuery c7Oracle sumQuery2 [Value.str "Operations"] = none := rfl
  have h3 : lookupVal [("total_salary", Value.num 350000), ("emp_count", Value.num 5)]
      "total_salary" = some (Value.num 350000) := rfl
  have h4 : lookupVal [("total_salary", Value.num 350000), ("emp_count", Value.num 5)]
      "emp_count" = some (Value.num 5) := rfl
  have hb : ((5 : ℚ) - ((c7Known.length : ℕ) : ℚ) == 1) = true := by
    norm_num [c7Known]
  simp only [SumAttack.attack, h1, h2, h3, h4, hb, if_true]

/-- C9 (counterexample): a query that contains the FROM keyword but does
not start with SELECT is nevertheless wrapped as a COUNT(*) subquery, so
wrapping does not happen exactly when no FROM keyword is found. -/
theorem C9_counterexample :
    MinimumSizeRestriction.convert_to_count_query c9Query
        = "SELECT COUNT(*) as count FROM (WITH t AS (SELECT 1) SELECT * FROM t) as subquery"
    ∧ (findSubL "from".toList (pyLower c9Query.toList)).isSome = true :=
  ⟨rfl, rfl⟩

/-- C9 (amended): the count pre-check replaces everything before the
first occurrence of the substring `from` with `SELECT COUNT(*) as count
FROM` only when the lowercased, stripped query starts with `select`
(the character index is computed on the stripped lowercase text and
applied to the original text); in every other case — no `from`
substring, or a query not starting with `select` even if it contains
FROM — the whole query is wrapped as a COUNT(*) subquery. -/
theorem C9_count_rewrite :
    ∀ q : String,
    (listStartsWith "select".toList (pyStrip (pyLower q.toList)) = false →
      MinimumSizeRestriction.convert_to_count_query q
        = ("SELECT COUNT(*) as count FROM (".toList ++ q.toList
            ++ ") as subquery".toList).asString) ∧
    (findSubL "from".toList (pyStrip (pyLower q.toList)) = none →
      MinimumSizeRestriction.convert_to_count_query q
        = ("SELECT COUNT(*) as count FROM (".toList ++ q.toList
            ++ ") as subquery".toList).asString) ∧
    (∀ i, listStartsWith "select".toList (pyStrip (pyLower q.toList)) = true →
      findSubL "from".toList (pyStrip (pyLower q.toList)) = some i →
      MinimumSizeRestriction.convert_to_count_query q
        = ("SELECT COUNT(*) as count FROM ".toList ++ q.toList.drop (i + 4)).asString) := by
  intro q
  refine ⟨?_, ?_, ?_⟩
  · intro h
    unfold MinimumSizeRestriction.convert_to_count_query countQueryAux
    rw [h]
    simp
  · intro h
    unfold MinimumSizeRestriction.convert_to_count_query countQueryAux
    rw [h]
    by_cases hs : listStartsWith "select".toList (pyStrip (pyLower q.toList)) <;>
      simp [hs]
  · intro i hs hf
    unfold MinimumSizeRestriction.convert_to_count_query countQueryAux
    rw [hs, hf]
    simp

/-- C9 witness: the amended theorem applied to a plain SELECT query,
whose `from` substring sits at index 9. -/
theorem C9_count_rewrite_witness :
    MinimumSizeRestriction.convert_to_count_query "select a from t"
      = ("SELECT COUNT(*) as count FROM ".toList
          ++ ("select a from t".toList.drop (9 + 4))).asString :=
  (C9_count_rewrite "select a from t").2.2 9 rfl rfl

/-- C10 (counterexample): a successfully executed query with an empty
result set produces a Cell Suppression outcome *without* the
`original_results` key, refuting the claim for every successfully
executed query. -/
theorem C10_counterexample :
    emptyOkOracle "SELECT 1" [] = .ok []
    ∧ (CellSuppression.aggregate emptyOkOracle "alice" 3 "SELECT 1" [] []).map
        (fun x => x.1.original_results) = some none :=
  ⟨rfl, rfl⟩

/-- C10 (amended): for every successfully executed query returning at
least one row, the Differential Privacy and Cell Suppression outcomes
carry the complete unmodified original rows under `original_results`. -/
theorem C10_original_results :
    ∀ (o : Oracle) (noise : Nat → ℚ) (u : String) (eps mcs : ℚ) (q : String)
      (p : List Value) (audit : List AuditRecord) (r : Row) (rest : List Row),
    o q p = .ok (r :: rest) →
    (DifferentialPrivacy.aggregate o noise u eps q p audit).1.original_results
        = some (r :: rest) ∧
    (∀ out a2, CellSuppression.aggregate o u mcs q p audit = some (out, a2) →
        out.original_results = some (r :: rest)) := by
  intro o noise u eps mcs q p audit r rest h
  constructor
  · simp [DifferentialPrivacy.aggregate, AggregationMethod.execute_with_logging, h]
  · intro out a2 hcs
    cases hrows : cellSuppressRows mcs (r :: rest) with
    | none =>
        simp [CellSuppression.aggregate, AggregationMethod.execute_with_logging,
              h, hrows] at hcs
    | some pr =>
        simp [CellSuppression.aggregate, AggregationMethod.execute_with_logging,
              h, hrows] at hcs
        rw [← hcs.1]

/-- C10 witness: the amended theorem applied to a concrete one-row
result set. -/
theorem C10_original_results_witness :
    (DifferentialPrivacy.aggregate c8Oracle c8Noise "u" 1 "Q" [] []).1.original_results
      = some [[("salary", Value.num 100), ("name", Value.str "Bob")]] :=
  (C10_original_results c8Oracle c8Noise "u" 1 3 "Q" [] [] _ _ rfl).1

/-- C3: with a successfully executed count pre-check reporting `c`, the
Minimum Size strategy executes and returns the rows when `c` is at least
the minimum, and blocks with a reason naming the exact count and
threshold when `c` is below it. -/
theorem C3_minimum_size :
    ∀ (o : Oracle) (u : String) (minS : ℤ) (q : String) (p : List Value)
      (audit : List AuditRecord) (crows : List Row) (c : ℚ),
    o (MinimumSizeRestriction.convert_to_count_query q) p = .ok crows →
    getCount crows = some c →
    ((∀ rows, (minS : ℚ) ≤ c → o q p = .ok rows →
        ∃ a2, MinimumSizeRestriction.aggregate o u minS q p audit
          = some (⟨"Minimum Size Restriction", false, none, some rows, none,
                   some ("min_size=" ++ toString minS ++ ", actual_size=" ++ toString c)⟩,
                  a2)) ∧
     (c < (minS : ℚ) →
        ∃ a2, MinimumSizeRestriction.aggregate o u minS q p audit
          = some (⟨"Minimum Size Restriction", true,
                   some ("Result set too small: " ++ toString c ++ " < " ++ toString minS),
                   none, none, some ("min_size=" ++ toString minS)⟩, a2))) := by
  intro o u minS q p audit crows c h1 h2
  constructor
  · intro rows hle hok
    simp only [MinimumSizeRestriction.aggregate, AggregationMethod.execute_with_logging,
               h1, h2, hok, Option.getD]
    rw [if_neg (not_lt.2 hle)]
    exact ⟨_, rfl⟩
  · intro hlt
    simp only [MinimumSizeRestriction.aggregate, AggregationMethod.execute_with_logging,
               h1, h2, Option.getD]
    rw [if_pos hlt]
    exact ⟨_, rfl⟩

/-- C3 witness: a concrete store whose count pre-check reports 7 ≥ 5 and
whose real query returns two rows. -/
theorem C3_minimum_size_witness :
    (MinimumSizeRestriction.aggregate c3Oracle "alice" 5 c3Query [] []).map (fun x => x.1)
      = some ⟨"Minimum Size Restriction", false, none,
              some [[("salary", Value.num 100)], [("salary", Value.num 200)]], none,
              some ("min_size=" ++ toString (5 : ℤ) ++ ", actual_size=" ++ toString (7 : ℚ))⟩ := by
  obtain ⟨a2, h⟩ :=
    (C3_minimum_size c3Oracle "alice" 5 c3Query [] [] [[("count", Value.num 7)]] 7
      rfl rfl).1 [[("salary", Value.num 100)], [("salary", Value.num 200)]]
      (by norm_num) rfl
  rw [h]
  rfl

/-- C5 (counterexample): a row whose *first* count-like column is large
enough but whose second count-like column is below the minimum passes
through completely unchanged, although the claim requires such a row
(it has a column whose name contains "count" with value below the
minimum) to be suppressed. -/
theorem C5_counterexample :
    (CellSuppression.aggregate c5Oracle "alice" 3
        "SELECT COUNT(a) as count_a, COUNT(b) as count_b FROM t" [] []).map
        (fun x => x.1.results)
      = some (some [c5Row])
    ∧ containsCount "count_b" = true
    ∧ lookupVal c5Row "count_b" = some (Value.num 1)
    ∧ ((1 : ℚ) < 3)
    ∧ lookupVal c5Row "count_a" ≠ some (Value.str "SUPPRESSED") := by
  refine ⟨rfl, rfl, rfl, by norm_num, by decide⟩

/-- Pointwise characterization of the Cell Suppression row loop. -/
theorem cellSuppressRows_spec :
    ∀ (mcs : ℚ) (rows out : List Row) (n : Nat),
    cellSuppressRows mcs rows = some (out, n) →
    out.length = rows.length ∧
    ∀ (i : Nat) (r : Row), rows[i]? = some r →
      ∃ r2 b, cellSuppressRow mcs r = some (r2, b) ∧ out[i]? = some r2 := by
  intro mcs rows
  induction rows with
  | nil =>
      intro out n h
      simp only [cellSuppressRows, Option.some.injEq] at h
      obtain ⟨h1, _⟩ := Prod.mk.injEq _ _ _ _ ▸ h
      refine ⟨by rw [← h1], ?_⟩
      intro i r hi
      simp at hi
  | cons r rest ih =>
      intro out n h
      simp only [cellSuppressRows] at h
      cases hr : cellSuppressRow mcs r with
      | none => rw [hr] at h; simp at h
      | some pr =>
          rw [hr] at h
          obtain ⟨r2, b⟩ := pr
          cases hrest : cellSuppressRows mcs rest with
          | none => rw [hrest] at h; simp at h
          | some pr2 =>
              rw [hrest] at h
              obtain ⟨rs2, n2⟩ := pr2
              simp only [Option.some.injEq, Prod.mk.injEq] at h
              obtain ⟨hout, _⟩ := h
              subst hout
              obtain ⟨ihlen, ihget⟩ := ih rs2 n2 hrest
              refine ⟨by simp [ihlen], ?_⟩
              intro i rr hi
              cases i with
              | zero =>
                  simp only [List.getElem?_cons_zero, Option.some.injEq] at hi
                  subst hi
                  exact ⟨r2, b, hr, by simp⟩
              | succ j =>
                  simp only [List.getElem?_cons_succ] at hi ⊢
                  exact ihget j rr hi

/-- C5 (amended): when the query executes successfully, Cell Suppression
never blocks; and in the returned rows, a row whose *first* count-like
column (in iteration order) holds a numeric value below the minimum cell
size has every other column replaced by the marker and that column set
to null, while a row whose first count-like column is not small (or that
has no count-like column) passes through unchanged. -/
theorem C5_cell_suppression :
    ∀ (o : Oracle) (u : String) (mcs : ℚ) (q : String) (p : List Value)
      (audit : List AuditRecord) (rows : List Row) (out : Outcome)
      (a2 : List AuditRecord),
    o q p = .ok rows →
    CellSuppression.aggregate o u mcs q p audit = some (out, a2) →
    out.blocked = false ∧
    (rows = [] → out.results = none) ∧
    (∀ r0 rest, rows = r0 :: rest →
      ∃ rs, out.results = some rs ∧ rs.length = rows.length ∧
        ∀ (i : Nat) (r : Row), rows[i]? = some r →
          ((findCountCol r = none → rs[i]? = some r) ∧
           (∀ cc x, findCountCol r = some cc →
              lookupVal r cc = some (Value.num x) →
              ((x < mcs → rs[i]? = some (r.map (fun pr =>
                  (pr.1, if pr.1 == cc then Value.null
                         else Value.str "SUPPRESSED")))) ∧
               (¬ x < mcs → rs[i]? = some r))))) := by
  intro o u mcs q p audit rows out a2 hok hcs
  cases rows with
  | nil =>
      simp only [CellSuppression.aggregate, AggregationMethod.execute_with_logging, hok,
                 Option.some.injEq, Prod.mk.injEq] at hcs
      obtain ⟨hout, _⟩ := hcs
      subst hout
      refine ⟨rfl, fun _ => rfl, ?_⟩
      intro r0 rest h
      exact absurd h (by simp)
  | cons r0 rest =>
      cases hrows : cellSuppressRows mcs (r0 :: rest) with
      | none =>
          simp only [CellSuppression.aggregate, AggregationMethod.execute_with_logging,
                     hok, hrows] at hcs
          exact absurd hcs (by simp)
      | some pr =>
          obtain ⟨srows, n⟩ := pr
          simp only [CellSuppression.aggregate, AggregationMethod.execute_with_logging,
                     hok, hrows, Option.some.injEq, Prod.mk.injEq] at hcs
          obtain ⟨hout, _⟩ := hcs
          subst hout
          refine ⟨rfl, by simp, ?_⟩
          intro r0x restx _
          obtain ⟨hlen, hget⟩ := cellSuppressRows_spec mcs (r0 :: rest) srows n hrows
          refine ⟨srows, rfl, hlen, ?_⟩
          intro i r hi
      
          obtain ⟨r2, b, hrow, hsi⟩ := hget i r hi
          constructor
          · intro hnone
            simp only [cellSuppressRow, hnone, Option.some.injEq, Prod.mk.injEq] at hrow
            rw [hsi, ← hrow.1]
          · intro cc x hcc hval
            simp only [cellSuppressRow, hcc, hval] at hrow
            constructor
            · intro hlt
              rw [if_pos hlt] at hrow
              simp only [Option.some.injEq, Prod.mk.injEq] at hrow
              rw [hsi, ← hrow.1]
              rfl
            · intro hge
              rw [if_neg hge] at hrow
              simp only [Option.some.injEq, Prod.mk.injEq] at hrow
              rw [hsi, ← hrow.1]

/-- C5 witness: a grouped row with count 2 below the minimum 3 is
suppressed; the amended theorem applied at that input. -/
theorem C5_cell_suppression_witness :
    (CellSuppression.aggregate cw5Oracle "alice" 3 "Q" [] []).map
        (fun x => x.1.blocked) = some false := by
  cases hcs : CellSuppression.aggregate cw5Oracle "alice" 3 "Q" [] [] with
  | none => exact absurd hcs (by decide)
  | some pr =>
      obtain ⟨out, a2⟩ := pr
      have h := C5_cell_suppression cw5Oracle "alice" 3 "Q" [] []
        [[("dept", Value.str "Ops"), ("emp_count", Value.num 2)]] out a2 rfl hcs
      simp [h.1]

/-- C4: overlap similarity of any hash to itself is exactly 1; once an
entry with a stored hash sits in the caller's retrieved history (the 20
most recent entries), any successful query whose current result-set hash
has similarity strictly above the threshold to that entry is blocked;
and on an unblocked nonempty result the entry appended to history
carries exactly the hash of the returned result set. -/
theorem C4_overlap_similarity :
    (∀ h : Nat, OverlapControl.calculate_overlap h h = 1) ∧
    (∀ (o : Oracle) (hashFn : List Row → Nat) (u : String) (thr : ℚ)
       (hist : List HistEntry) (q : String) (p : List Value)
       (audit : List AuditRecord) (r : Row) (rs : List Row) (e : HistEntry)
       (hh : Nat),
       e ∈ hist → e.result_set_hash = some hh →
       o q p = .ok (r :: rs) →
       thr < OverlapControl.calculate_overlap (hashFn (r :: rs)) hh →
       (OverlapControl.aggregate o hashFn u thr hist q p audit).1.blocked = true) ∧
    (∀ (o : Oracle) (hashFn : List Row → Nat) (u : String) (thr : ℚ)
       (hist : List HistEntry) (q : String) (p : List Value)
       (audit : List AuditRecord) (r : Row) (rs : List Row),
       o q p = .ok (r :: rs) →
       (OverlapControl.aggregate o hashFn u thr hist q p audit).1.blocked = false →
       (OverlapControl.aggregate o hashFn u thr hist q p audit).2.2
         = some ⟨some (hashFn (r :: rs))⟩) := by
  refine ⟨?_, ?_, ?_⟩
  · intro h
    unfold OverlapControl.calculate_overlap hammingMatches
    rw [List.countP_eq_length.mpr (fun a _ => by simp)]
    simp
  · intro o hashFn u thr hist q p audit r rs e hh he hhash hok hover
    have hpred : overlapPred (hashFn (r :: rs)) thr e = true := by
      unfold overlapPred
      rw [hhash]
      exact decide_eq_true hover
    cases hfind : hist.find? (overlapPred (hashFn (r :: rs)) thr) with
    | none =>
        exfalso
        rw [List.find?_eq_none] at hfind
        exact hfind e he hpred
    | some e2 =>
        simp [OverlapControl.aggregate, AggregationMethod.execute_with_logging, hok, hfind]
  · intro o hashFn u thr hist q p audit r rs hok hnb
    cases hfind : hist.find? (overlapPred (hashFn (r :: rs)) thr) with
    | some e2 =>
        exfalso
        have hb : (OverlapControl.aggregate o hashFn u thr hist q p audit).1.blocked
            = true := by
          simp [OverlapControl.aggregate, AggregationMethod.execute_with_logging, hok, hfind]
        rw [hb] at hnb
        exact Bool.noConfusion hnb
    | none =>
        simp [OverlapControl.aggregate, AggregationMethod.execute_with_logging, hok, hfind]

/-- C4 witness: a caller whose history holds the hash 0 and whose next
query hashes to the same value is blocked at the default threshold. -/
theorem C4_overlap_similarity_witness :
    (OverlapControl.aggregate c4Oracle (fun _ => 0) "alice" (4/5) [⟨some 0⟩]
        "Q" [] []).1.blocked = true := by
  refine C4_overlap_similarity.2.1 c4Oracle (fun _ => 0) "alice" (4/5) [⟨some 0⟩]
    "Q" [] [] [("a", Value.num 1)] [] ⟨some 0⟩ 0
    (List.mem_singleton.mpr rfl) rfl rfl ?_
  show (4 / 5 : ℚ) < OverlapControl.calculate_overlap 0 0
  rw [C4_overlap_similarity.1 0]
  norm_num

/-- C1 (amended): for all five strategies `blocked = true` implies the
rows field is `None`; `blocked = false` implies rows are present for No
Protection and Minimum Size, while for Differential Privacy, Overlap
Control and Cell Suppression rows are present unless the successfully
executed query returned an empty row list, in which case the rows field
is `None` with `blocked = false`. -/
theorem C1_blocked_rows :
    ∀ (o : Oracle) (hashFn : List Row → Nat) (noise : Nat → ℚ) (u : String)
      (minS : ℤ) (eps thr mcs : ℚ) (hist : List HistEntry) (q : String)
      (p : List Value) (audit : List AuditRecord),
    ((NoProtection.aggregate o u q p audit).1.blocked = true →
        (NoProtection.aggregate o u q p audit).1.results = none) ∧
    ((NoProtection.aggregate o u q p audit).1.blocked = false →
        ∃ rs, (NoProtection.aggregate o u q p audit).1.results = some rs) ∧
    (∀ out a2, MinimumSizeRestriction.aggregate o u minS q p audit = some (out, a2) →
        (out.blocked = true → out.results = none) ∧
        (out.blocked = false → ∃ rs, out.results = some rs)) ∧
    ((DifferentialPrivacy.aggregate o noise u eps q p audit).1.blocked = true →
        (DifferentialPrivacy.aggregate o noise u eps q p audit).1.results = none) ∧
    ((DifferentialPrivacy.aggregate o noise u eps q p audit).1.blocked = false →
        (∃ rs, (DifferentialPrivacy.aggregate o noise u eps q p audit).1.results = some rs)
        ∨ (o q p = .ok []
           ∧ (DifferentialPrivacy.aggregate o noise u eps q p audit).1.results = none)) ∧
    ((OverlapControl.aggregate o hashFn u thr hist q p audit).1.blocked = true →
        (OverlapControl.aggregate o hashFn u thr hist q p audit).1.results = none) ∧
    ((OverlapControl.aggregate o hashFn u thr hist q p audit).1.blocked = false →
        (∃ rs, (OverlapControl.aggregate o hashFn u thr hist q p audit).1.results = some rs)
        ∨ (o q p = .ok []
           ∧ (OverlapControl.aggregate o hashFn u thr hist q p audit).1.results = none)) ∧
    (∀ out a2, CellSuppression.aggregate o u mcs q p audit = some (out, a2) →
        (out.blocked = true → out.results = none) ∧
        (out.blocked = false →
          (∃ rs, out.results = some rs) ∨ (o q p = .ok [] ∧ out.results = none))) := by
  intro o hashFn noise u minS eps thr mcs hist q p audit
  refine ⟨?_, ?_, ?_, ?_, ?_, ?_, ?_, ?_⟩
  · cases hoq : o q p with
    | ok rs =>
        intro hb
        simp [NoProtection.aggregate, AggregationMethod.execute_with_logging, hoq] at hb
    | error e =>
        intro _
        simp [NoProtection.aggregate, AggregationMethod.execute_with_logging, hoq]
  · cases hoq : o q p with
    | ok rs =>
        intro _
        exact ⟨rs, by simp [NoProtection.aggregate,
          AggregationMethod.execute_with_logging, hoq]⟩
    | error e =>
        intro hb
        simp [NoProtection.aggregate, AggregationMethod.execute_with_logging, hoq] at hb
  · intro out a2 h
    cases hcq : o (MinimumSizeRestriction.convert_to_count_query q) p with
    | error e =>
        simp only [MinimumSizeRestriction.aggregate,
          AggregationMethod.execute_with_logging, hcq, Option.some.injEq,
          Prod.mk.injEq] at h
        obtain ⟨hout, _⟩ := h
        subst hout
        exact ⟨fun _ => rfl, fun hb => Bool.noConfusion hb⟩
    | ok crows =>
        cases hgc : getCount crows with
        | none =>
            simp only [MinimumSizeRestriction.aggregate,
              AggregationMethod.execute_with_logging, hcq, Option.getD, hgc] at h
            exact Option.noConfusion h
        | some c =>
            by_cases hc : c < (minS : ℚ)
            · simp only [MinimumSizeRestriction.aggregate,
                AggregationMethod.execute_with_logging, hcq, Option.getD, hgc,
                if_pos hc, Option.some.injEq, Prod.mk.injEq] at h
              obtain ⟨hout, _⟩ := h
              subst hout
              exact ⟨fun _ => rfl, fun hb => Bool.noConfusion hb⟩
            · cases hoq : o q p with
              | ok rows =>
                  simp only [MinimumSizeRestriction.aggregate,
                    AggregationMethod.execute_with_logging, hcq, Option.getD, hgc,
                    if_neg hc, hoq, Option.some.injEq, Prod.mk.injEq] at h
                  obtain ⟨hout, _⟩ := h
                  subst hout
                  exact ⟨fun hb => Bool.noConfusion hb, fun _ => ⟨rows, rfl⟩⟩
              | error e =>
                  simp only [MinimumSizeRestriction.aggregate,
                    AggregationMethod.execute_with_logging, hcq, Option.getD, hgc,
                    if_neg hc, hoq, Option.some.injEq, Prod.mk.injEq] at h
                  obtain ⟨hout, _⟩ := h
                  subst hout
                  exact ⟨fun _ => rfl, fun hb => Bool.noConfusion hb⟩
  · cases hoq : o q p with
    | ok rs =>
        cases rs with
        | nil =>
            intro hb
            simp [DifferentialPrivacy.aggregate,
              AggregationMethod.execute_with_logging, hoq] at hb
        | cons r rest =>
            intro hb
            simp [DifferentialPrivacy.aggregate,
              AggregationMethod.execute_with_logging, hoq] at hb
    | error e =>
        intro _
        simp [DifferentialPrivacy.aggregate,
          AggregationMethod.execute_with_logging, hoq]
  · cases hoq : o q p with
    | ok rs =>
        cases rs with
        | nil =>
            intro _
            exact Or.inr ⟨rfl, by simp [DifferentialPrivacy.aggregate,
              AggregationMethod.execute_with_logging, hoq]⟩
        | cons r rest =>
            intro _
            exact Or.inl ⟨(dpRows noise (r :: rest) 0).1,
              by simp [DifferentialPrivacy.aggregate,
                AggregationMethod.execute_with_logging, hoq]⟩
    | error e =>
        intro hb
        simp [DifferentialPrivacy.aggregate,
          AggregationMethod.execute_with_logging, hoq] at hb
  · cases hoq : o q p with
    | ok rs =>
        cases rs with
        | nil =>
            intro hb
            simp [OverlapControl.aggregate,
              AggregationMethod.execute_with_logging, hoq] at hb
        | cons r rest =>
            intro hb
            cases hfind : hist.find? (overlapPred (hashFn (r :: rest)) thr) with
            | some e2 =>
                simp [OverlapControl.aggregate,
                  AggregationMethod.execute_with_logging, hoq, hfind]
            | none =>
                simp [OverlapControl.aggregate,
                  AggregationMethod.execute_with_logging, hoq, hfind] at hb
    | error e =>
        intro _
        simp [OverlapControl.aggregate,
          AggregationMethod.execute_with_logging, hoq]
  · cases hoq : o q p with
    | ok rs =>
        cases rs with
        | nil =>
            intro _
            exact Or.inr ⟨rfl, by simp [OverlapControl.aggregate,
              AggregationMethod.execute_with_logging, hoq]⟩
        | cons r rest =>
            intro hb
            cases hfind : hist.find? (overlapPred (hashFn (r :: rest)) thr) with
            | some e2 =>
                exfalso
                simp [OverlapControl.aggregate,
                  AggregationMethod.execute_with_logging, hoq, hfind] at hb
            | none =>
                exact Or.inl ⟨r :: rest, by simp [OverlapControl.aggregate,
                  AggregationMethod.execute_with_logging, hoq, hfind]⟩
    | error e =>
        intro hb
        simp [OverlapControl.aggregate,
          AggregationMethod.execute_with_logging, hoq] at hb
  · intro out a2 h
    cases hoq : o q p with
    | error e =>
        simp only [CellSuppression.aggregate,
          AggregationMethod.execute_with_logging, hoq, Option.some.injEq,
          Prod.mk.injEq] at h
        obtain ⟨hout, _⟩ := h
        subst hout
        exact ⟨fun _ => rfl, fun hb => Bool.noConfusion hb⟩
    | ok rs =>
        cases rs with
        | nil =>
            simp only [CellSuppression.aggregate,
              AggregationMethod.execute_with_logging, hoq, Option.some.injEq,
              Prod.mk.injEq] at h
            obtain ⟨hout, _⟩ := h
            subst hout
            exact ⟨fun hb => Bool.noConfusion hb, fun _ => Or.inr ⟨rfl, rfl⟩⟩
        | cons r rest =>
            cases hrows : cellSuppressRows mcs (r :: rest) with
            | none =>
                simp only [CellSuppression.aggregate,
                  AggregationMethod.execute_with_logging, hoq, hrows] at h
                exact Option.noConfusion h
            | some pr =>
                obtain ⟨srows, n⟩ := pr
                simp only [CellSuppression.aggregate,
                  AggregationMethod.execute_with_logging, hoq, hrows,
                  Option.some.injEq, Prod.mk.injEq] at h
                obtain ⟨hout, _⟩ := h
                subst hout
                exact ⟨fun hb => Bool.noConfusion hb, fun _ => Or.inl ⟨srows, rfl⟩⟩

/-- C1 witness: the amended theorem applied to a failing store — the
blocked No Protection outcome carries no rows. -/
theorem C1_blocked_rows_witness :
    (NoProtection.aggregate errOracle "alice" "Q" [] []).1.results = none :=
  (C1_blocked_rows errOracle (fun _ => 0) zeroNoise "alice" 5 1 (4 / 5) 3 []
    "Q" [] []).1 rfl

/-- C6 (counterexample): when the second aggregate query returns an
employee count equal to the first (the targeted name matches nobody),
the reported value is `avg₁·n − avg₂·count_without`, not the claimed
`avg₁·n − avg₂·(n−1)`: with avg₁ = 100, n = 2, avg₂ = 50 the code
reports 100 while the claimed formula yields 150. -/
theorem C6_counterexample :
    ((DifferencingAttack.attack c6Oracle "Bob Smith" "Engineering").map
        (fun r => r.inferred_salary)) = some (some 100)
    ∧ (100 : ℚ) ≠ 100 * 2 - 50 * (2 - 1) := by
  constructor
  · have h1 : attackQuery c6Oracle diffQuery1 [Value.str "Engineering"]
        = some [[("avg_salary", Value.num 100), ("emp_count", Value.num 2)]] := rfl
    have h2 : attackQuery c6Oracle diffQuery2
        [Value.str "Engineering", Value.str "Bob Smith"]
        = some [[("avg_salary", Value.num 50), ("emp_count", Value.num 2)]] := rfl
    have h3 : attackQuery c6Oracle diffVerifyQuery [Value.str "Bob Smith"]
        = none := rfl
    have ha1 : lookupVal [("avg_salary", Value.num 100), ("emp_count", Value.num 2)]
        "avg_salary" = some (Value.num 100) := rfl
    have hn1 : lookupVal [("avg_salary", Value.num 100), ("emp_count", Value.num 2)]
        "emp_count" = some (Value.num 2) := rfl
    have ha2 : lookupVal [("avg_salary", Value.num 50), ("emp_count", Value.num 2)]
        "avg_salary" = some (Value.num 50) := rfl
    have hn2 : lookupVal [("avg_salary", Value.num 50), ("emp_count", Value.num 2)]
        "emp_count" = some (Value.num 2) := rfl
    simp only [DifferencingAttack.attack, h1, h2, h3, ha1, hn1, ha2, hn2,
      Option.map_some']
    norm_num
  · norm_num

/-- C6 (amended): when either aggregate query returns no rows the attack
reports `success = false`; when both return rows holding numeric
averages and counts, the attack reports `success = true` and the
reconstructed value `avg_with_target · total_count − avg_without_target
· count_without`, where `count_without` is the employee count returned
by the second query (equal to `total_count − 1` exactly when the target
is counted once in the first query and excluded from the second). -/
theorem C6_differencing :
    ∀ (o : Oracle) (target dept : String),
    ((attackQuery o diffQuery1 [.str dept] = none ∨
      attackQuery o diffQuery1 [.str dept] = some []) →
      DifferencingAttack.attack o target dept
        = some ⟨"Differencing", false, some "Failed to execute first query",
                none, none, none, none, none, none⟩) ∧
    (∀ r1 t1 avg1 n1,
      attackQuery o diffQuery1 [.str dept] = some (r1 :: t1) →
      lookupVal r1 "avg_salary" = some (.num avg1) →
      lookupVal r1 "emp_count" = some (.num n1) →
      ((attackQuery o diffQuery2 [.str dept, .str target] = none ∨
        attackQuery o diffQuery2 [.str dept, .str target] = some []) →
        DifferencingAttack.attack o target dept
          = some ⟨"Differencing", false, some "Failed to execute second query",
                  none, none, none, none, none, none⟩) ∧
      (∀ r2 t2 avg2 m,
        attackQuery o diffQuery2 [.str dept, .str target] = some (r2 :: t2) →
        lookupVal r2 "avg_salary" = some (.num avg2) →
        lookupVal r2 "emp_count" = some (.num m) →
        (attackQuery o diffVerifyQuery [.str target] = none ∨
         attackQuery o diffVerifyQuery [.str target] = some [] ∨
         (∃ a ta s, attackQuery o diffVerifyQuery [.str target] = some (a :: ta) ∧
            lookupVal a "salary" = some (Value.num s))) →
        ∃ res, DifferencingAttack.attack o target dept = some res ∧
          res.success = true ∧
          res.inferred_salary = some (avg1 * n1 - avg2 * m))) := by
  intro o target dept
  constructor
  · intro h
    rcases h with h | h <;> simp [DifferencingAttack.attack, h]
  · intro r1 t1 avg1 n1 h1 ha1 hn1
    constructor
    · intro h
      rcases h with h | h <;> simp [DifferencingAttack.attack, h1, ha1, hn1, h]
    · intro r2 t2 avg2 m h2 ha2 hm2 hv
      rcases hv with hv | hv | ⟨a, ta, s, hva, hs⟩
      · exact ⟨⟨"Differencing", true, none, some target, some dept,
          some (avg1 * n1 - avg2 * m), none, none, some 2⟩,
          by simp [DifferencingAttack.attack, h1, ha1, hn1, h2, ha2, hm2, hv],
          rfl, rfl⟩
      · exact ⟨⟨"Differencing", true, none, some target, some dept,
          some (avg1 * n1 - avg2 * m), none, none, some 2⟩,
          by simp [DifferencingAttack.attack, h1, ha1, hn1, h2, ha2, hm2, hv],
          rfl, rfl⟩
      · exact ⟨⟨"Differencing", true, none, some target, some dept,
          some (avg1 * n1 - avg2 * m), some s,
          if s == 0 then none else some |avg1 * n1 - avg2 * m - s|, some 2⟩,
          by simp [DifferencingAttack.attack, h1, ha1, hn1, h2, ha2, hm2, hva, hs],
          rfl, rfl⟩

/-- C6 witness: a consistent department of 10 averaging 70000, 9
averaging 66000 without the target; the amended theorem reports
`70000·10 − 66000·9`. -/
theorem C6_differencing_witness :
    ((DifferencingAttack.attack cw6Oracle "Alice Johnson" "Engineering").map
        (fun r => (r.success, r.inferred_salary)))
      = some (true, some (70000 * 10 - 66000 * 9)) := by
  obtain ⟨res, hres, hsucc, hinf⟩ :=
    ((C6_differencing cw6Oracle "Alice Johnson" "Engineering").2
      [("avg_salary", Value.num 70000), ("emp_count", Value.num 10)] []
      70000 10 rfl rfl rfl).2
      [("avg_salary", Value.num 66000), ("emp_count", Value.num 9)] []
      66000 9 rfl rfl rfl
      (Or.inr (Or.inr ⟨[("salary", Value.num 106000)], [], 106000, rfl, rfl⟩))
  rw [hres, Option.map_some', hsucc, hinf]

/-- The draw counter advances by exactly the number of numeric fields of
the row. -/
theorem dpRow_snd :
    ∀ (noise : Nat → ℚ) (r : Row) (k : Nat),
    (dpRow noise r k).2 = k + numCountRow r := by
  intro noise r
  induction r with
  | nil => intro k; simp [dpRow, numCountRow]
  | cons kv rest ih =>
      intro k
      obtain ⟨key, v⟩ := kv
      cases v with
      | num x =>
          simp only [dpRow, numCountRow, List.countP_cons, ih]
          simp [Value.isNum, numCountRow]
          omega
      | str s =>
          simp only [dpRow, numCountRow, List.countP_cons, ih]
          simp [Value.isNum, numCountRow]
      | null =>
          simp only [dpRow, numCountRow, List.countP_cons, ih]
          simp [Value.isNum, numCountRow]

/-- The noisy row has the same number of fields. -/
theorem dpRow_length :
    ∀ (noise : Nat → ℚ) (r : Row) (k : Nat),
    (dpRow noise r k).1.length = r.length := by
  intro noise r
  induction r with
  | nil => intro k; simp [dpRow]
  | cons kv rest ih =>
      intro k
      obtain ⟨key, v⟩ := kv
      cases v with
      | num x => simp [dpRow, ih]
      | str s => simp [dpRow, ih]
      | null => simp [dpRow, ih]

/-- Pointwise behaviour of the row noiser: the key is preserved, a
numeric value at position `j` receives the draw numbered by the count of
numeric fields before it, every other value is copied verbatim. -/
theorem dpRow_get :
    ∀ (noise : Nat → ℚ) (r : Row) (k j : Nat) (key : String) (v : Value),
    r[j]? = some (key, v) →
    (dpRow noise r k).1[j]? = some (key,
      match v with
      | Value.num x => Value.num (x + noise (k + numCountRow (r.take j)))
      | w => w) := by
  intro noise r
  induction r with
  | nil => intro k j key v h; simp at h
  | cons kv rest ih =>
      intro k j key v h
      obtain ⟨key0, v0⟩ := kv
      cases j with
      | zero =>
          simp only [List.getElem?_cons_zero, Option.some.injEq] at h
          injection h with hk hv
          subst hk
          subst hv
          cases v0 with
          | num x => simp [dpRow, numCountRow]
          | str s => simp [dpRow]
          | null => simp [dpRow]
      | succ j =>
          simp only [List.getElem?_cons_succ] at h
          cases v0 with
          | num x0 =>
              have ih2 := ih (k + 1) j key v h
              simp only [dpRow, List.getElem?_cons_succ, List.take_succ_cons]
              rw [ih2]
              cases v with
              | num x =>
                  have hidx : k + 1 + numCountRow (rest.take j)
                      = k + numCountRow ((key0, Value.num x0) :: rest.take j) := by
                    simp [numCountRow, List.countP_cons, Value.isNum]
                    omega
                  rw [hidx]
              | str s => rfl
              | null => rfl
          | str s0 =>
              have ih2 := ih k j key v h
              simp only [dpRow, List.getElem?_cons_succ, List.take_succ_cons]
              rw [ih2]
              cases v with
              | num x =>
                  have hidx : k + numCountRow (rest.take j)
                      = k + numCountRow ((key0, Value.str s0) :: rest.take j) := by
                    simp [numCountRow, List.countP_cons, Value.isNum]
                  rw [hidx]
              | str s => rfl
              | null => rfl
          | null =>
              have ih2 := ih k j key v h
              simp only [dpRow, List.getElem?_cons_succ, List.take_succ_cons]
              rw [ih2]
              cases v with
              | num x =>
                  have hidx : k + numCountRow (rest.take j)
                      = k + numCountRow ((key0, Value.null) :: rest.take j) := by
                    simp [numCountRow, List.countP_cons, Value.isNum]
                  rw [hidx]
              | str s => rfl
              | null => rfl

/-- The draw counter after a list of rows advances by the total number
of numeric fields. -/
theorem dpRows_snd :
    ∀ (noise : Nat → ℚ) (rows : List Row) (k : Nat),
    (dpRows noise rows k).2 = k + numCountRows rows := by
  intro noise rows
  induction rows with
  | nil => intro k; simp [dpRows, numCountRows]
  | cons r rest ih =>
      intro k
      simp only [dpRows, ih, dpRow_snd, numCountRows, List.map_cons, List.sum_cons]
      omega

/-- The noisy result set has the same number of rows. -/
theorem dpRows_length :
    ∀ (noise : Nat → ℚ) (rows : List Row) (k : Nat),
    (dpRows noise rows k).1.length = rows.length := by
  intro noise rows
  induction rows with
  | nil => intro k; simp [dpRows]
  | cons r rest ih =>
      intro k
      simp [dpRows, ih]

/-- Pointwise behaviour of the result-set noiser: row `i` is the row
noiser applied at the draw counter advanced past all earlier rows. -/
theorem dpRows_get :
    ∀ (noise : Nat → ℚ) (rows : List Row) (k i : Nat) (r : Row),
    rows[i]? = some r →
    (dpRows noise rows k).1[i]?
      = some (dpRow noise r (k + numCountRows (rows.take i))).1 := by
  intro noise rows
  induction rows with
  | nil => intro k i r h; simp at h
  | cons r0 rest ih =>
      intro k i r h
      cases i with
      | zero =>
          simp only [List.getElem?_cons_zero, Option.some.injEq] at h
          subst h
          simp [dpRows, numCountRows]
      | succ i =>
          simp only [List.getElem?_cons_succ] at h
          simp only [dpRows, List.getElem?_cons_succ, List.take_succ_cons]
          rw [dpRow_snd]
          rw [ih (k + numCountRow r0) i r h]
          have hidx : k + numCountRow r0 + numCountRows (rest.take i)
              = k + numCountRows (r0 :: rest.take i) := by
            simp [numCountRows, List.map_cons, List.sum_cons]
            omega
          rw [hidx]

/-- C8: for every successfully executed query, Differential Privacy never
blocks; and on a nonempty result set it returns rows of the same shape
in which every numeric field equals the original value plus the noise
draw whose index counts the numeric fields before it (one fresh,
independent draw per numeric field, row-major), while every non-numeric
field is returned verbatim. -/
theorem C8_differential_privacy :
    ∀ (o : Oracle) (noise : Nat → ℚ) (u : String) (eps : ℚ) (q : String)
      (p : List Value) (audit : List AuditRecord) (rows : List Row),
    o q p = .ok rows →
    (DifferentialPrivacy.aggregate o noise u eps q p audit).1.blocked = false ∧
    (∀ r0 rest, rows = r0 :: rest →
      ∃ rs, (DifferentialPrivacy.aggregate o noise u eps q p audit).1.results
              = some rs ∧
        rs.length = rows.length ∧
        ∀ (i j : Nat) (r : Row) (key : String) (v : Value),
          rows[i]? = some r → r[j]? = some (key, v) →
          ∃ r2, rs[i]? = some r2 ∧ r2.length = r.length ∧
            ((v.isNum = false → r2[j]? = some (key, v)) ∧
             (∀ x, v = Value.num x → r2[j]? = some (key, Value.num (x + noise
                (numCountRows (rows.take i) + numCountRow (r.take j))))))) := by
  intro o noise u eps q p audit rows hok
  constructor
  · cases rows with
    | nil =>
        simp [DifferentialPrivacy.aggregate,
          AggregationMethod.execute_with_logging, hok]
    | cons r rest =>
        simp [DifferentialPrivacy.aggregate,
          AggregationMethod.execute_with_logging, hok]
  · intro r0 rest hrows
    subst hrows
    refine ⟨(dpRows noise (r0 :: rest) 0).1,
      by simp [DifferentialPrivacy.aggregate,
        AggregationMethod.execute_with_logging, hok],
      dpRows_length noise (r0 :: rest) 0, ?_⟩
    intro i j r key v hi hj
    refine ⟨(dpRow noise r (0 + numCountRows ((r0 :: rest).take i))).1,
      dpRows_get noise (r0 :: rest) 0 i r hi,
      dpRow_length noise r _, ?_⟩
    constructor
    · intro hnn
      have h := dpRow_get noise r (0 + numCountRows ((r0 :: rest).take i)) j key v hj
      rw [h]
      cases v with
      | num x => simp [Value.isNum] at hnn
      | str s => rfl
      | null => rfl
    · intro x hx
      subst hx
      have h := dpRow_get noise r (0 + numCountRows ((r0 :: rest).take i)) j key
        (Value.num x) hj
      rw [h, Nat.zero_add]

/-- C8 witness: the theorem applied to a concrete store returning one
mixed row. -/
theorem C8_differential_privacy_witness :
    (DifferentialPrivacy.aggregate c8Oracle c8Noise "alice" 1 "Q" [] []).1.blocked
      = false :=
  (C8_differential_privacy c8Oracle c8Noise "alice" 1 "Q" [] [] _ rfl).1
